import Mathlib

/-!
Shallow embedding of the dataset-driven effort-estimation engine
(`DatasetMLAgent` in `src/agents/dataset_ml_agent.py`) together with proofs
about its behaviour: preprocessing, candidate evaluation, best-model
selection, prediction intervals, outlier reporting, domain calibration and
the error paths of the `analyze` entry point.
-/

namespace DatasetML

/-- A column of the raw dataframe: numeric values (possibly missing) or
categorical string values, mirroring the pandas dtypes the agent handles. -/
inductive Column where
  | numeric (vals : List (Option ℚ))
  | categorical (vals : List String)
deriving DecidableEq

/-- A raw dataframe: named columns in table order. -/
structure DataFrame where
  cols : List (String × Column)
deriving DecidableEq

/-- Number of entries of a column. -/
def Column.size : Column → ℕ
  | .numeric vals => vals.length
  | .categorical vals => vals.length

/-- Number of rows of the frame: the length of its first column. -/
def DataFrame.numRows (df : DataFrame) : ℕ :=
  match df.cols with
  | [] => 0
  | c :: _ => c.2.size

/-- pandas `df.empty`: the frame has no columns or no rows. -/
def DataFrame.isEmptyDF (df : DataFrame) : Bool :=
  df.cols.isEmpty || df.numRows == 0

/-- ASCII lower-casing of one character, as Python `str.lower` acts on the
ASCII column names the agent deals with. -/
def toLowerChar (c : Char) : Char :=
  if 65 ≤ c.val && c.val ≤ 90 then Char.ofNat (c.val.toNat + 32) else c

/-- Whether `pat` occurs at the start of `s`. -/
def startsWithB : List Char → List Char → Bool
  | [], _ => true
  | _ :: _, [] => false
  | a :: as, b :: bs => a.val == b.val && startsWithB as bs

/-- Whether `pat` occurs as a contiguous subsequence of `s`. -/
def hasSubB (pat : List Char) : List Char → Bool
  | [] => startsWithB pat []
  | c :: cs => startsWithB pat (c :: cs) || hasSubB pat cs

/-- Python `"effort" in name.lower()`. -/
def containsEffort (name : String) : Bool :=
  hasSubB "effort".data (name.data.map toLowerChar)

/-- Lines 133-137: the first column (in table order) whose name contains the
substring "effort" case-insensitively. -/
def findTargetCol (df : DataFrame) : Option String :=
  (df.cols.find? (fun c => containsEffort c.1)).map (·.1)

/-- Arithmetic mean, as pandas `Series.mean` over the present values. -/
def meanQ (l : List ℚ) : ℚ := l.sum / l.length

/-- Strict lexicographic order on code-point sequences, the order numpy uses
on strings. -/
def strLtB : List Char → List Char → Bool
  | [], [] => false
  | [], _ :: _ => true
  | _ :: _, [] => false
  | a :: as, b :: bs =>
    if a.val < b.val then true else if b.val < a.val then false else strLtB as bs

/-- The matching non-strict order on strings. -/
def strLeB (a b : String) : Bool := !(strLtB b.data a.data)

/-- sklearn `LabelEncoder.fit_transform`: the classes are the sorted distinct
values and each value is replaced by the index of its class. -/
def labelEncode (vals : List String) : List ℚ :=
  let classes := (vals.dedup).insertionSort (fun a b => strLeB a b = true)
  vals.map (fun v => ((classes.indexOf v : ℕ) : ℚ))

/-- Lines 102-105, `X[col] = X[col].fillna(X[col].mean())`: when the column has
a missing entry, fill every missing entry with the mean of the present
entries.  The pandas mean of an all-missing column is itself missing, and
`fillna` with a missing value leaves the column unchanged. -/
def imputeNum (vals : List (Option ℚ)) : List (Option ℚ) :=
  if vals.any Option.isNone then
    let present := vals.filterMap id
    if present.isEmpty then vals
    else vals.map (fun o => some (o.getD (meanQ present)))
  else vals

/-- `_preprocess` on one feature column: categorical columns are label-encoded,
numeric columns are mean-imputed. -/
def preprocessCol : Column → List (Option ℚ)
  | .categorical vals => (labelEncode vals).map some
  | .numeric vals => imputeNum vals

/-- Feature half of `_preprocess` (lines 87-106): drop the target column, then
encode and impute the remaining columns. -/
def preprocessX (df : DataFrame) (target : String) : List (String × List (Option ℚ)) :=
  (df.cols.filter (fun c => c.1 ≠ target)).map (fun c => (c.1, preprocessCol c.2))

/-- Every numeric feature column of the frame that has a missing entry also
has at least one present entry, so that its pandas mean is defined. -/
def numericColsImputable (df : DataFrame) (target : String) : Bool :=
  df.cols.all (fun c =>
    match c.2 with
    | .numeric vals =>
      decide (c.1 = target) || !(vals.any Option.isNone) ||
        !(vals.filterMap id).isEmpty
    | .categorical _ => true)

/-- The fixed candidate list of line 157-163, in declaration order. -/
def candidateNames : List String :=
  ["RandomForest_200", "RandomForest_500", "ExtraTrees_200", "GradientBoosting",
   "LinearRegression"]

/-- The fold of Python `min(items, key=...)`: keep the current minimum and
replace it only on a strictly smaller key. -/
def selectBestAux (best : String × ℚ) : List (String × ℚ) → String × ℚ
  | [] => best
  | kv :: rest => selectBestAux (if kv.2 < best.2 then kv else best) rest

/-- Line 205, `min(model_results.items(), key=lambda kv: kv[1]["rmse"])`;
`none` mirrors the `ValueError` Python raises on an empty collection. -/
def selectBest : List (String × ℚ) → Option (String × ℚ)
  | [] => none
  | kv :: rest => some (selectBestAux kv rest)

/-- Whether a candidate's `fit` call succeeds on the native dtypes and on the
float-coerced data, abstracting the sklearn estimators. -/
structure FitBehavior where
  nativeOk : Bool
  coercedOk : Bool
deriving DecidableEq

/-- Lines 179-183: `try: model.fit(X, y) except Exception: model.fit(X.astype(float),
y.astype(float))`.  An exception from the retry is not caught. -/
def fitWithRetry (b : FitBehavior) : Except Unit Unit :=
  if b.nativeOk then .ok () else if b.coercedOk then .ok () else .error ()

/-- The evaluation loop over the candidate models (lines 169-202): candidates
are fit in turn and an exception escaping `fitWithRetry` aborts the loop.
Returns the names of the candidates that produced results. -/
def evaluateCandidates : List (String × FitBehavior) → Except Unit (List String)
  | [] => .ok []
  | nb :: rest =>
    match fitWithRetry nb.2 with
    | .ok _ => (evaluateCandidates rest).map (fun names => nb.1 :: names)
    | .error e => .error e

/-- The behaviour §4.3/§7 of the spec describes for the same loop: a candidate
that cannot be fit even after numeric coercion is dropped and the remaining
candidates are still evaluated.  Stated from the spec's words, for comparison
with `evaluateCandidates`. -/
def evaluateCandidatesSpec (bs : List (String × FitBehavior)) : List String :=
  (bs.filter (fun nb => nb.2.nativeOk || nb.2.coercedOk)).map (·.1)

/-- Interpolation position of `np.quantile` on data of length `n`:
`⌊q * (n - 1)⌋`. -/
def quantileIdx (n : ℕ) (q : ℚ) : ℕ :=
  (⌊q * ((n : ℚ) - 1)⌋).toNat

/-- Linear interpolation step of `np.quantile` on already sorted data `s`:
with position `h = q * (n - 1)` and `i = ⌊h⌋`, the value is
`s[i] + (h - i) * (s[min (i+1) (n-1)] - s[i])`. -/
def quantileAt (s : List ℚ) (q : ℚ) : ℚ :=
  s.getD (quantileIdx s.length q) 0 +
    (q * ((s.length : ℚ) - 1) - ((quantileIdx s.length q : ℕ) : ℚ)) *
      (s.getD (min (quantileIdx s.length q + 1) (s.length - 1)) 0 -
        s.getD (quantileIdx s.length q) 0)

/-- numpy `np.quantile(a, q)` with the default linear interpolation: sort the
data, then interpolate. -/
def quantileLinear (l : List ℚ) (q : ℚ) : ℚ :=
  quantileAt (l.insertionSort (· ≤ ·)) q

/-- Lines 211-216 and 302-307: the prediction interval of the selected model,
from its pooled out-of-fold residuals — the 2.5th and 97.5th residual
percentiles and their difference; absent when the pool is empty. -/
def predictionInterval (residuals : List ℚ) : Option (ℚ × ℚ × ℚ) :=
  if residuals.isEmpty then none
  else
    let lower := quantileLinear residuals (1/40)
    let upper := quantileLinear residuals (39/40)
    some (lower, upper, upper - lower)

/-- One reported outlier. -/
structure OutlierRecord where
  row_index : ℕ
  score : ℚ
  effort : ℚ
  domain : Option String
deriving DecidableEq

/-- Lines 229-234: one outlier entry; the `domain` key is attached exactly when
a domain column name is set (`if domain_col_name else` nothing). -/
def mkOutlierRecord (idx : ℕ) (score effort : ℚ) (domainCol : Option String)
    (domainVal : String → String) : OutlierRecord :=
  { row_index := idx, score := score, effort := effort,
    domain := domainCol.map (fun c => domainVal c) }

/-- The column names of the feature matrix `X`: every column except the
target. -/
def featureColNames (df : DataFrame) (target : String) : List String :=
  (preprocessX df target).map (·.1)

/-- Line 223: `scores = -iso.decision_function(X)` over the `n` rows of the
full feature matrix, paired with the row indices. -/
def outlierScores (decision : ℕ → ℚ) (n : ℕ) : List (ℕ × ℚ) :=
  (List.range n).map (fun i => (i, -(decision i)))

/-- Line 225, `np.argsort(scores)[-5:][::-1]`: the (up to) five
highest-scoring rows, highest score first, with their scores. -/
def topOutliers (decision : ℕ → ℚ) (n : ℕ) : List (ℕ × ℚ) :=
  let sorted := (outlierScores decision n).insertionSort (fun a b => a.2 ≤ b.2)
  (sorted.drop (sorted.length - 5)).reverse

instance : IsTotal (ℕ × ℚ) (fun a b => a.2 ≤ b.2) :=
  ⟨fun a b => le_total a.2 b.2⟩

instance : IsTrans (ℕ × ℚ) (fun a b => a.2 ≤ b.2) :=
  ⟨fun _ _ _ hab hbc => le_trans hab hbc⟩

/-- Lines 242-285 reduced to what decides membership: `groups` lists each
distinct domain value with its row count, `ok` records whether its per-group
evaluation ran without exception (the `except Exception: continue`).  A group
enters the result exactly when it has at least 5 rows and no exception; the
entry keeps the group's row count (the `"count"` field). -/
def domainSpecificModels (groups : List (String × ℕ)) (ok : String → Bool) :
    List (String × ℕ) :=
  groups.filter (fun g => decide (5 ≤ g.2) && ok g.1)

/-- A process environment. -/
def Env := List (String × String)

/-- `os.getenv`. -/
def getenv (env : Env) (key : String) : Option String :=
  (env.find? (fun kv => kv.1 = key)).map (·.2)

/-- `os.getenv(key)` followed by Python truthiness (`if not path`,
`... or None`): an unset or empty variable yields nothing. -/
def resolveEnvStr (env : Env) (key : String) : Option String :=
  match getenv env key with
  | none => none
  | some s => if s = "" then none else some s

/-- Lines 145-149: the domain column is read from the `DOMAIN_COLUMN`
environment variable and ignored when absent from the frame's columns. -/
def resolveDomainCol (env : Env) (df : DataFrame) : Option String :=
  match resolveEnvStr env "DOMAIN_COLUMN" with
  | none => none
  | some c => if (df.cols.map (·.1)).contains c then some c else none

/-- The inputs `analyze` reads to locate its dataset and grouping column
(lines 119-125 and 145-149): both come from the process environment; the
per-call `dataArg` dictionary is not consulted. -/
structure AnalysisInputs where
  datasetPath : Option String
  domainColumn : Option String
deriving DecidableEq

/-- Resolution of the analysis inputs as `analyze` performs it. -/
def resolveAnalysisInputs (env : Env) (envVar : String)
    (dataArg : List (String × String)) : AnalysisInputs :=
  { datasetPath := resolveEnvStr env envVar,
    domainColumn := resolveEnvStr env "DOMAIN_COLUMN" }

/-- The structured return value of `analyze`; an absent key is `none`.  The
field `errorMsg` models the `"_error"` key. -/
structure Response where
  agent : String
  errorMsg : Option String
  dataset_path : Option String
  target_column : Option String
  best_model : Option String
  best_model_rmse : Option ℚ
  best_model_mae : Option ℚ
  top_features : Option (List (String × ℚ))
  all_models : Option (List (String × ℚ × ℚ))
  prediction_interval : Option (ℚ × ℚ × ℚ)
  outliers : Option (List OutlierRecord)
  domain_specific_models : Option (List (String × ℕ))
deriving DecidableEq

/-- An error return, `{"agent": ..., "_error": msg}`: only the agent name and
the error description are populated. -/
def mkErrorResponse (agentName msg : String) : Response :=
  { agent := agentName, errorMsg := some msg, dataset_path := none,
    target_column := none, best_model := none, best_model_rmse := none,
    best_model_mae := none, top_features := none, all_models := none,
    prediction_interval := none, outliers := none,
    domain_specific_models := none }

/-- The guard of sklearn `KFold(n_splits).split`: a `ValueError` when there are
fewer samples than splits. -/
def kfoldSplitCheck (nSplits nSamples : ℕ) : Except String Unit :=
  if nSamples < nSplits then
    .error "Cannot have number of splits n_splits greater than the number of samples"
  else .ok ()

/-- `DatasetMLAgent.analyze` up to the start of the cross-validation loop, the
modelling work after a successful 5-fold split abstracted as `pipeline`.
`Except.error` is an exception escaping the call; `Except.ok` is a structured
return value. -/
def analyzeModel (env : Env) (agentName envVar : String)
    (loadDataset : String → Option DataFrame)
    (pipeline : DataFrame → String → Option String → Response) :
    Except String Response :=
  match resolveEnvStr env envVar with
  | none =>
    .ok (mkErrorResponse agentName
      ("Environment variable " ++ envVar ++ " not set; cannot load dataset"))
  | some path =>
    match loadDataset path with
    | none => .ok (mkErrorResponse agentName ("Failed to load dataset at " ++ path))
    | some df =>
      if df.isEmptyDF then
        .ok (mkErrorResponse agentName ("Failed to load dataset at " ++ path))
      else
        match findTargetCol df with
        | none =>
          .ok (mkErrorResponse agentName
            "No effort column found in dataset; expected a column containing effort")
        | some target =>
          let X := preprocessX df target
          let domainCol := resolveDomainCol env df
          if X.length = 0 then
            .ok (mkErrorResponse agentName
              "Dataset has no usable features after preprocessing")
          else
            match kfoldSplitCheck 5 df.numRows with
            | .error e => .error e
            | .ok _ => .ok (pipeline df target domainCol)

/-- The fold of Python `min` returns either its accumulator (then every scanned
key is at least the accumulator's) or an element of the scanned list that is
strictly smaller than the accumulator, strictly smaller than everything before
it and at most everything after it. -/
theorem selectBestAux_spec (l : List (String × ℚ)) (best : String × ℚ) :
    (selectBestAux best l = best ∧ ∀ kv ∈ l, best.2 ≤ kv.2) ∨
    (∃ l1 l2, l = l1 ++ selectBestAux best l :: l2 ∧
      (selectBestAux best l).2 < best.2 ∧
      (∀ kv ∈ l1, (selectBestAux best l).2 < kv.2) ∧
      (∀ kv ∈ l2, (selectBestAux best l).2 ≤ kv.2)) := by
  induction l generalizing best with
  | nil => exact Or.inl ⟨rfl, by simp⟩
  | cons kv rest ih =>
    by_cases h : kv.2 < best.2
    · have e : selectBestAux best (kv :: rest) = selectBestAux kv rest := by
        simp [selectBestAux, h]
      rcases ih kv with ⟨heq, hall⟩ | ⟨l1, l2, hsplit, hlt, hall1, hall2⟩
      · refine Or.inr ⟨[], rest, ?_, ?_, ?_, ?_⟩
        · simp [e, heq]
        · rw [e, heq]; exact h
        · simp
        · rw [e, heq]; exact hall
      · refine Or.inr ⟨kv :: l1, l2, ?_, ?_, ?_, ?_⟩
        · rw [e]; simpa using hsplit
        · rw [e]; exact lt_trans hlt h
        · intro x hx
          rcases List.mem_cons.mp hx with rfl | hx
          · rw [e]; exact hlt
          · rw [e]; exact hall1 x hx
        · rw [e]; exact hall2
    · have e : selectBestAux best (kv :: rest) = selectBestAux best rest := by
        simp [selectBestAux, h]
      rcases ih best with ⟨heq, hall⟩ | ⟨l1, l2, hsplit, hlt, hall1, hall2⟩
      · refine Or.inl ⟨by rw [e, heq], ?_⟩
        intro x hx
        rcases List.mem_cons.mp hx with rfl | hx
        · exact le_of_not_lt h
        · exact hall x hx
      · refine Or.inr ⟨kv :: l1, l2, ?_, ?_, ?_, ?_⟩
        · rw [e]; simpa using hsplit
        · rw [e]; exact hlt
        · intro x hx
          rcases List.mem_cons.mp hx with rfl | hx
          · rw [e]; exact lt_of_lt_of_le hlt (le_of_not_lt h)
          · rw [e]; exact hall1 x hx
        · rw [e]; exact hall2

/-- Claim C1: for every evaluation that produced at least one usable candidate,
`selectBest` returns the entry with the lowest mean RMSE, keeping the first
strict minimum of the scanned order (ties broken toward the earliest entry);
it fails (Python `min` raises `ValueError`) exactly when the evaluation
produced zero candidates. -/
theorem C1_best_model_selection (results : List (String × ℚ)) :
    (selectBest results = none ↔ results = []) ∧
    (results ≠ [] →
      ∃ m l1 l2, selectBest results = some m ∧ results = l1 ++ m :: l2 ∧
        (∀ kv ∈ l1, m.2 < kv.2) ∧ (∀ kv ∈ l2, m.2 ≤ kv.2)) := by
  cases results with
  | nil => exact ⟨by simp [selectBest], fun h => absurd rfl h⟩
  | cons kv rest =>
    refine ⟨by simp [selectBest], fun _ => ?_⟩
    rcases selectBestAux_spec rest kv with ⟨heq, hall⟩ | ⟨l1, l2, hsplit, hlt, hall1, hall2⟩
    · exact ⟨kv, [], rest, by simp [selectBest, heq], by simp, by simp, hall⟩
    · refine ⟨selectBestAux kv rest, kv :: l1, l2, rfl, by simpa using hsplit, ?_, hall2⟩
      intro x hx
      rcases List.mem_cons.mp hx with rfl | hx
      · exact hlt
      · exact hall1 x hx

/-- Witness for C1 on the candidate list with RMSEs (3, 2, 2, 4, 5): the
selection succeeds and picks the first strict minimum. -/
theorem C1_witness :
    ([("RandomForest_200", (3 : ℚ)), ("RandomForest_500", 2), ("ExtraTrees_200", 2),
        ("GradientBoosting", 4), ("LinearRegression", 5)] ≠
      ([] : List (String × ℚ))) ∧
    (∃ m l1 l2,
      selectBest [("RandomForest_200", (3 : ℚ)), ("RandomForest_500", 2),
          ("ExtraTrees_200", 2), ("GradientBoosting", 4), ("LinearRegression", 5)] = some m ∧
      [("RandomForest_200", (3 : ℚ)), ("RandomForest_500", 2), ("ExtraTrees_200", 2),
          ("GradientBoosting", 4), ("LinearRegression", 5)] = l1 ++ m :: l2 ∧
      (∀ kv ∈ l1, m.2 < kv.2) ∧ (∀ kv ∈ l2, m.2 ≤ kv.2)) :=
  ⟨by decide,
    (C1_best_model_selection
      [("RandomForest_200", (3 : ℚ)), ("RandomForest_500", 2), ("ExtraTrees_200", 2),
        ("GradientBoosting", 4), ("LinearRegression", 5)]).2 (by decide)⟩

/-- Claim C2 counterexample: with a first candidate whose fit fails both on
native types and after float coercion and a second candidate that fits fine,
the evaluation loop raises (the exception of the retry is uncaught), so the
failing candidate is not dropped and the rest of the pipeline does not
continue — while the spec's described behaviour would keep the second
candidate. -/
theorem C2_counterexample :
    evaluateCandidates
        [("RandomForest_200", ⟨false, false⟩), ("RandomForest_500", ⟨true, true⟩)] =
      Except.error () ∧
    fitWithRetry ⟨true, true⟩ = Except.ok () ∧
    evaluateCandidatesSpec
        [("RandomForest_200", ⟨false, false⟩), ("RandomForest_500", ⟨true, true⟩)] =
      ["RandomForest_500"] :=
  ⟨rfl, rfl, by decide⟩

/-- Claim C2 (amended): fitting is retried once after coercing the data to
floating point, but if the retry also fails the exception propagates and the
whole evaluation aborts — the candidate is not dropped and no further
candidate is evaluated. -/
theorem C2_fit_retry (bs : List (String × FitBehavior)) :
    (∀ b : FitBehavior,
      fitWithRetry b =
        if b.nativeOk || b.coercedOk then Except.ok () else Except.error ()) ∧
    evaluateCandidates bs =
      (if bs.all (fun nb => nb.2.nativeOk || nb.2.coercedOk) then
        Except.ok (bs.map (·.1))
      else Except.error ()) := by
  constructor
  · intro b
    rcases b with ⟨bn, bc⟩
    cases bn <;> cases bc <;> simp [fitWithRetry]
  · induction bs with
    | nil => simp [evaluateCandidates]
    | cons nb rest ih =>
      rcases nb with ⟨nm, bn, bc⟩
      cases bn <;> cases bc <;>
        simp [evaluateCandidates, fitWithRetry, ih] <;>
        by_cases hr : rest.all (fun nb => nb.2.nativeOk || nb.2.coercedOk) <;>
        simp [hr, Except.map]

/-- Claim C3 counterexample: on a frame whose feature column `m` is numeric
with every value missing, `_preprocess` returns a feature matrix that still
contains missing values — `fillna` with the undefined (missing) mean of an
all-missing column fills nothing. -/
theorem C3_counterexample :
    (preprocessX
        ⟨[("Effort", Column.numeric [some 1, some 2]),
          ("m", Column.numeric [none, none])]⟩ "Effort").any
      (fun c => c.2.any (fun v => v.isNone)) = true := by decide

/-- Claim C3 (amended): provided every numeric feature column with a missing
entry also has a present entry, the returned feature matrix has no missing
values; categorical columns are always replaced by integer codes, and a
numeric column's missing entries are filled with the mean of its present
entries only. -/
theorem C3_preprocess (df : DataFrame) (target : String)
    (h : numericColsImputable df target = true) :
    (∀ c ∈ preprocessX df target, ∀ v ∈ c.2, v.isSome = true) ∧
    (∀ vals : List String, ∀ q ∈ labelEncode vals, ∃ k : ℕ, q = (k : ℚ)) ∧
    (∀ vals : List (Option ℚ), vals.any Option.isNone = true →
      (vals.filterMap id).isEmpty = false →
      imputeNum vals = vals.map (fun o => some (o.getD (meanQ (vals.filterMap id))))) := by
  refine ⟨?_, ?_, ?_⟩
  · intro c hc v hv
    rcases List.mem_map.mp hc with ⟨c0, hc0, rfl⟩
    have hmem : c0 ∈ df.cols := (List.mem_filter.mp hc0).1
    have hne : c0.1 ≠ target := by
      have := (List.mem_filter.mp hc0).2
      simpa using this
    have hcol := List.all_eq_true.mp h c0 hmem
    rcases c0 with ⟨name, col⟩
    cases col with
    | categorical vals =>
      simp only [preprocessCol] at hv
      rcases List.mem_map.mp hv with ⟨q, _, rfl⟩
      rfl
    | numeric vals =>
      simp only [preprocessCol] at hv
      by_cases hany : vals.any Option.isNone = true
      · have hcol' : (decide (name = target) || !(vals.any Option.isNone) ||
            !(vals.filterMap id).isEmpty) = true := hcol
        have hemp : (vals.filterMap id).isEmpty = false := by
          rcases Bool.or_eq_true_iff.mp hcol' with h1 | h2
          · rcases Bool.or_eq_true_iff.mp h1 with ha | hb
            · exact absurd (of_decide_eq_true ha) hne
            · simp [hany] at hb
          · simpa using h2
        rw [imputeNum, if_pos hany] at hv
        rw [if_neg (by simp [hemp])] at hv
        rcases List.mem_map.mp hv with ⟨o, _, rfl⟩
        rfl
      · rw [imputeNum, if_neg hany] at hv
        have hf : vals.any Option.isNone = false := Bool.eq_false_iff.mpr hany
        have := List.any_eq_false.mp hf v hv
        cases v with
        | none => exact absurd rfl this
        | some a => rfl
  · intro vals q hq
    rcases List.mem_map.mp hq with ⟨v, _, rfl⟩
    exact ⟨_, rfl⟩
  · intro vals hany hemp
    rw [imputeNum, if_pos hany, if_neg (by simpa [List.isEmpty_iff] using hemp)]

/-- Witness for C3 on a concrete frame with a fully-observed numeric column
and a categorical column, plus concrete imputation of `[some 4, none]`. -/
theorem C3_witness :
    numericColsImputable
        ⟨[("Effort", Column.numeric [some 1, some 2]),
          ("Size", Column.numeric [some 1, some 2]),
          ("Team", Column.categorical ["b", "a"])]⟩ "Effort" = true ∧
    (some (1 : ℚ)).isSome = true ∧
    (∃ k : ℕ, (1 : ℚ) = (k : ℚ)) ∧
    imputeNum [some (4 : ℚ), none] =
      ([some (4 : ℚ), none]).map
        (fun o => some (o.getD (meanQ (([some (4 : ℚ), none]).filterMap id)))) := by
  refine ⟨by decide, ?_, ?_, ?_⟩
  · exact (C3_preprocess
      ⟨[("Effort", Column.numeric [some 1, some 2]),
        ("Size", Column.numeric [some 1, some 2]),
        ("Team", Column.categorical ["b", "a"])]⟩ "Effort" (by decide)).1
      ("Size", [some 1, some 2]) (by decide) (some 1) (by decide)
  · exact (C3_preprocess
      ⟨[("Effort", Column.numeric [some 1, some 2]),
        ("Size", Column.numeric [some 1, some 2]),
        ("Team", Column.categorical ["b", "a"])]⟩ "Effort" (by decide)).2.1
      ["b", "a"] 1 (by decide)
  · exact (C3_preprocess
      ⟨[("Effort", Column.numeric [some 1, some 2]),
        ("Size", Column.numeric [some 1, some 2]),
        ("Team", Column.categorical ["b", "a"])]⟩ "Effort" (by decide)).2.2
      [some (4 : ℚ), none] (by decide) (by decide)

/-- Bounds of the floor of a nonnegative rational, through `Int.toNat`. -/
theorem floor_toNat_bounds (x : ℚ) (hx : 0 ≤ x) :
    (((⌊x⌋).toNat : ℕ) : ℚ) ≤ x ∧ x < (((⌊x⌋).toNat : ℕ) : ℚ) + 1 := by
  have h0 : (0 : ℤ) ≤ ⌊x⌋ := Int.floor_nonneg.mpr hx
  have hc : (((⌊x⌋).toNat : ℕ) : ℚ) = ((⌊x⌋ : ℤ) : ℚ) := by
    have := Int.toNat_of_nonneg h0
    exact_mod_cast congrArg (fun z : ℤ => (z : ℚ)) this
  rw [hc]
  exact ⟨Int.floor_le x, Int.lt_floor_add_one x⟩

/-- Indexing with a default into a sorted list is monotone below the length. -/
theorem sorted_getD_mono {s : List ℚ} (hs : s.Sorted (· ≤ ·)) {a b : ℕ}
    (hab : a ≤ b) (hb : b < s.length) :
    s.getD a 0 ≤ s.getD b 0 := by
  have ha : a < s.length := Nat.lt_of_le_of_lt hab hb
  rw [List.getD_eq_getElem s 0 ha, List.getD_eq_getElem s 0 hb]
  have h := hs.rel_get_of_le (a := ⟨a, ha⟩) (b := ⟨b, hb⟩) (Fin.mk_le_mk.mpr hab)
  simpa using h

/-- Interpolating within the same cell is monotone in the position. -/
theorem interp_le_of_eq (A B h1v h2v i : ℚ) (hAB : A ≤ B) (h12 : h1v ≤ h2v) :
    A + (h1v - i) * (B - A) ≤ A + (h2v - i) * (B - A) := by
  nlinarith [mul_nonneg (sub_nonneg.mpr h12) (sub_nonneg.mpr hAB)]

/-- Interpolations in ordered cells are ordered. -/
theorem interp_le_of_lt (A1 B1 A2 B2 g1 g2 : ℚ) (hA1B1 : A1 ≤ B1)
    (hA2B2 : A2 ≤ B2) (hB1A2 : B1 ≤ A2) (hg1 : g1 ≤ 1) (hg2 : 0 ≤ g2) :
    A1 + g1 * (B1 - A1) ≤ A2 + g2 * (B2 - A2) := by
  nlinarith [mul_nonneg (by linarith : (0 : ℚ) ≤ 1 - g1)
      (by linarith : (0 : ℚ) ≤ B1 - A1),
    mul_nonneg hg2 (by linarith : (0 : ℚ) ≤ B2 - A2)]

/-- On sorted data, the linearly interpolated quantile is monotone in the
quantile level. -/
theorem quantileAt_mono {s : List ℚ} (hs : s.Sorted (· ≤ ·)) {q1 q2 : ℚ}
    (hq0 : 0 ≤ q1) (hq12 : q1 ≤ q2) (hq1 : q2 ≤ 1) :
    quantileAt s q1 ≤ quantileAt s q2 := by
  rcases Nat.eq_zero_or_pos s.length with hn0 | hpos
  · have hnil : s = [] := List.length_eq_zero.mp hn0
    subst hnil
    simp [quantileAt]
  · have hn1 : (1 : ℚ) ≤ (s.length : ℚ) := by exact_mod_cast hpos
    have hn1' : (0 : ℚ) ≤ (s.length : ℚ) - 1 := by linarith
    have h12 : q1 * ((s.length : ℚ) - 1) ≤ q2 * ((s.length : ℚ) - 1) :=
      mul_le_mul_of_nonneg_right hq12 hn1'
    have h1nn : 0 ≤ q1 * ((s.length : ℚ) - 1) := mul_nonneg hq0 hn1'
    have h2nn : 0 ≤ q2 * ((s.length : ℚ) - 1) := le_trans h1nn h12
    have h2top : q2 * ((s.length : ℚ) - 1) ≤ (s.length : ℚ) - 1 :=
      mul_le_of_le_one_left hn1' hq1
    have hI1le : ((quantileIdx s.length q1 : ℕ) : ℚ) ≤ q1 * ((s.length : ℚ) - 1) :=
      (floor_toNat_bounds _ h1nn).1
    have hI1gt : q1 * ((s.length : ℚ) - 1) < ((quantileIdx s.length q1 : ℕ) : ℚ) + 1 :=
      (floor_toNat_bounds _ h1nn).2
    have hI2le : ((quantileIdx s.length q2 : ℕ) : ℚ) ≤ q2 * ((s.length : ℚ) - 1) :=
      (floor_toNat_bounds _ h2nn).1
    have hI12 : quantileIdx s.length q1 ≤ quantileIdx s.length q2 :=
      Int.toNat_le_toNat (Int.floor_le_floor h12)
    have hI2lt : quantileIdx s.length q2 < s.length := by
      by_contra hcon
      push_neg at hcon
      have hcon' : (s.length : ℚ) ≤ ((quantileIdx s.length q2 : ℕ) : ℚ) := by
        exact_mod_cast hcon
      linarith
    have hI1lt : quantileIdx s.length q1 < s.length := Nat.lt_of_le_of_lt hI12 hI2lt
    have hJ1lt : min (quantileIdx s.length q1 + 1) (s.length - 1) < s.length := by
      omega
    have hJ2lt : min (quantileIdx s.length q2 + 1) (s.length - 1) < s.length := by
      omega
    have hA1B1 : s.getD (quantileIdx s.length q1) 0 ≤
        s.getD (min (quantileIdx s.length q1 + 1) (s.length - 1)) 0 :=
      sorted_getD_mono hs (by omega) hJ1lt
    have hA2B2 : s.getD (quantileIdx s.length q2) 0 ≤
        s.getD (min (quantileIdx s.length q2 + 1) (s.length - 1)) 0 :=
      sorted_getD_mono hs (by omega) hJ2lt
    rcases eq_or_lt_of_le hI12 with heq | hlt
    · simp only [quantileAt]
      rw [heq]
      exact interp_le_of_eq _ _ _ _ _ hA2B2 h12
    · have hB1A2 : s.getD (min (quantileIdx s.length q1 + 1) (s.length - 1)) 0 ≤
          s.getD (quantileIdx s.length q2) 0 :=
        sorted_getD_mono hs (by omega) hI2lt
      simp only [quantileAt]
      exact interp_le_of_lt _ _ _ _ _ _ hA1B1 hA2B2 hB1A2 (by linarith) (by linarith)

/-- The interpolated quantile of a list is monotone in the quantile level. -/
theorem quantileLinear_mono (l : List ℚ) {q1 q2 : ℚ} (hq0 : 0 ≤ q1)
    (hq12 : q1 ≤ q2) (hq1 : q2 ≤ 1) :
    quantileLinear l q1 ≤ quantileLinear l q2 :=
  quantileAt_mono (List.sorted_insertionSort _ l) hq0 hq12 hq1

/-- Claim C4: a produced prediction interval consists of the 2.5th and 97.5th
percentile of the selected model's pooled out-of-fold residuals, its lower
quantile is at most its upper quantile, and its width is exactly their
difference; an empty residual pool produces no interval. -/
theorem C4_prediction_interval (residuals : List ℚ) :
    (residuals = [] → predictionInterval residuals = none) ∧
    (∀ lower upper width,
      predictionInterval residuals = some (lower, upper, width) →
      lower = quantileLinear residuals (1/40) ∧
      upper = quantileLinear residuals (39/40) ∧
      lower ≤ upper ∧ width = upper - lower) := by
  constructor
  · intro h
    subst h
    rfl
  · intro lower upper width h
    by_cases he : residuals.isEmpty
    · rw [predictionInterval, if_pos he] at h
      exact absurd h (by simp)
    · rw [predictionInterval, if_neg he] at h
      obtain ⟨hl, hu, hw⟩ : quantileLinear residuals (1/40) = lower ∧
          quantileLinear residuals (39/40) = upper ∧
          quantileLinear residuals (39/40) - quantileLinear residuals (1/40) = width := by
        simpa [Prod.ext_iff] using h
      subst hl
      subst hu
      subst hw
      exact ⟨rfl, rfl,
        quantileLinear_mono residuals (by norm_num) (by norm_num) (by norm_num), rfl⟩

/-- Witness for C4 on the residual pools `[]` and `[1, 2, 3]`. -/
theorem C4_witness :
    predictionInterval ([] : List ℚ) = none ∧
    predictionInterval [1, 2, 3] = some (21/20, 59/20, 19/10) ∧
    (21/20 : ℚ) = quantileLinear [1, 2, 3] (1/40) ∧
    (59/20 : ℚ) = quantileLinear [1, 2, 3] (39/40) ∧
    (21/20 : ℚ) ≤ 59/20 ∧ (19/10 : ℚ) = 59/20 - 21/20 := by
  have hpi : predictionInterval [1, 2, 3] = some (21/20, 59/20, 19/10) := by
    norm_num [predictionInterval, quantileLinear, quantileAt, quantileIdx]
  have h := (C4_prediction_interval [1, 2, 3]).2 (21/20) (59/20) (19/10) hpi
  exact ⟨(C4_prediction_interval []).1 rfl, hpi, h.1, h.2.1, h.2.2.1, h.2.2.2⟩

/-- Claim C5 counterexample: two invocations with identical explicit
arguments (the same configured variable name and the same per-call data
dictionary) resolve different dataset paths when the process environment
differs, so the analysis inputs are ambient process-wide state. -/
theorem C5_counterexample :
    resolveAnalysisInputs [("DATASET_PATH", "a.csv")] "DATASET_PATH" [] ≠
      resolveAnalysisInputs [("DATASET_PATH", "b.csv")] "DATASET_PATH" [] := by
  decide

/-- Claim C5 (amended): the dataset path and the domain-column name are read
from the process environment via `os.getenv` (`DATASET_PATH` by default, and
`DOMAIN_COLUMN`), not from the per-call argument: resolution ignores the
per-call data dictionary entirely and is a function of the environment
alone. -/
theorem C5_env_inputs (env : Env) (envVar : String)
    (d1 d2 : List (String × String)) :
    resolveAnalysisInputs env envVar d1 = resolveAnalysisInputs env envVar d2 ∧
    (resolveAnalysisInputs env envVar d1).datasetPath = resolveEnvStr env envVar ∧
    (resolveAnalysisInputs env envVar d1).domainColumn =
      resolveEnvStr env "DOMAIN_COLUMN" :=
  ⟨rfl, rfl, rfl⟩

/-- Claim C6 counterexample: with the domain column `Region`, which is a
column of the feature matrix (only the target is dropped), the outlier record
still carries the domain label — contradicting the claim that the label is
carried only when the domain column is not itself a feature. -/
theorem C6_counterexample :
    (mkOutlierRecord 0 1 2 (some "Region") (fun _ => "North")).domain =
      some "North" ∧
    "Region" ∈ featureColNames
        ⟨[("Effort", Column.numeric [some 1]), ("Size", Column.numeric [some 2]),
          ("Region", Column.categorical ["North"])]⟩ "Effort" :=
  ⟨rfl, by decide⟩

/-- Claim C6 (amended): every outlier record carries the row's original index,
its anomaly score and its target value, and carries a domain label if and only
if a domain column was supplied — regardless of whether that column is a
feature of the model's feature matrix. -/
theorem C6_outlier_record (idx : ℕ) (score effort : ℚ)
    (domainCol : Option String) (domainVal : String → String) :
    (mkOutlierRecord idx score effort domainCol domainVal).row_index = idx ∧
    (mkOutlierRecord idx score effort domainCol domainVal).score = score ∧
    (mkOutlierRecord idx score effort domainCol domainVal).effort = effort ∧
    ((mkOutlierRecord idx score effort domainCol domainVal).domain.isSome ↔
      domainCol.isSome) := by
  refine ⟨rfl, rfl, rfl, ?_⟩
  cases domainCol <;> simp [mkOutlierRecord]

/-- Claim C7: the outlier list has at most 5 entries, is sorted by
non-increasing anomaly score, and every entry is a row of the full feature
matrix scored by the negated decision function of the isolation model fitted
on all rows. -/
theorem C7_top_outliers (decision : ℕ → ℚ) (n : ℕ) :
    (topOutliers decision n).length ≤ 5 ∧
    List.Pairwise (fun a b : ℕ × ℚ => b.2 ≤ a.2) (topOutliers decision n) ∧
    (∀ kv ∈ topOutliers decision n, kv.1 < n ∧ kv.2 = -(decision kv.1)) := by
  refine ⟨?_, ?_, ?_⟩
  · simp only [topOutliers]
    rw [List.length_reverse, List.length_drop]
    omega
  · have hsorted : List.Sorted (fun a b : ℕ × ℚ => a.2 ≤ b.2)
        ((outlierScores decision n).insertionSort (fun a b => a.2 ≤ b.2)) :=
      List.sorted_insertionSort _ _
    have hdrop : List.Pairwise (fun a b : ℕ × ℚ => a.2 ≤ b.2)
        (((outlierScores decision n).insertionSort (fun a b => a.2 ≤ b.2)).drop
          (((outlierScores decision n).insertionSort (fun a b => a.2 ≤ b.2)).length - 5)) :=
      List.Pairwise.sublist (List.drop_sublist _ _) hsorted
    simp only [topOutliers]
    exact List.pairwise_reverse.mpr hdrop
  · intro kv hkv
    simp only [topOutliers, List.mem_reverse] at hkv
    have h1 : kv ∈ (outlierScores decision n).insertionSort (fun a b => a.2 ≤ b.2) :=
      (List.drop_sublist _ _).subset hkv
    have h2 : kv ∈ outlierScores decision n := (List.mem_insertionSort _).mp h1
    rcases List.mem_map.mp h2 with ⟨i, hi, rfl⟩
    exact ⟨List.mem_range.mp hi, rfl⟩

/-- Witness for C7 with the decision function `i ↦ -i` on 7 rows: the entry
`(6, 6)` of the produced list is a valid row index with the negated decision
value as its score. -/
theorem C7_witness :
    (topOutliers (fun i => -(i : ℚ)) 7).length ≤ 5 ∧
    List.Pairwise (fun a b : ℕ × ℚ => b.2 ≤ a.2)
      (topOutliers (fun i => -(i : ℚ)) 7) ∧
    ((6, (6 : ℚ)).1 < 7 ∧ (6, (6 : ℚ)).2 = -((fun i => -(i : ℚ)) (6, (6 : ℚ)).1)) :=
  ⟨(C7_top_outliers (fun i => -(i : ℚ)) 7).1,
   (C7_top_outliers (fun i => -(i : ℚ)) 7).2.1,
   (C7_top_outliers (fun i => -(i : ℚ)) 7).2.2 (6, 6) (by decide)⟩

/-- Claim C8: `domain_specific_models` never contains a key for a domain value
with fewer than 5 rows — undersized groups are skipped silently — and every
included group records a count of at least 5. -/
theorem C8_domain_group_size (groups : List (String × ℕ)) (ok : String → Bool) :
    (∀ g ∈ domainSpecificModels groups ok, 5 ≤ g.2 ∧ g ∈ groups) ∧
    (∀ g ∈ groups, g.2 < 5 → g ∉ domainSpecificModels groups ok) := by
  constructor
  · intro g hg
    have h := List.mem_filter.mp hg
    refine ⟨?_, h.1⟩
    have h2 := h.2
    simp only [Bool.and_eq_true, decide_eq_true_eq] at h2
    exact h2.1
  · intro g hg hlt hmem
    have h := (List.mem_filter.mp hmem).2
    simp only [Bool.and_eq_true, decide_eq_true_eq] at h
    omega

/-- Witness for C8 on the groups North (20 rows) and South (3 rows): North is
kept with its count, South is absent. -/
theorem C8_witness :
    (5 ≤ ("North", 20).2 ∧ ("North", 20) ∈ [("North", 20), ("South", 3)]) ∧
    ("South", 3) ∉ domainSpecificModels [("North", 20), ("South", 3)]
        (fun _ => true) :=
  ⟨(C8_domain_group_size [("North", 20), ("South", 3)] (fun _ => true)).1
      ("North", 20) (by decide),
   (C8_domain_group_size [("North", 20), ("South", 3)] (fun _ => true)).2
      ("South", 3) (by decide) (by decide)⟩

/-- Claim C9: when no dataset path is supplied, `analyze` returns (does not
raise) an error result whose only populated content is the error description:
every other result field is absent. -/
theorem C9_missing_path (env : Env) (agentName envVar : String)
    (load : String → Option DataFrame)
    (pipeline : DataFrame → String → Option String → Response)
    (h : resolveEnvStr env envVar = none) :
    ∃ msg, analyzeModel env agentName envVar load pipeline =
        Except.ok (mkErrorResponse agentName msg) ∧
      (mkErrorResponse agentName msg).errorMsg = some msg ∧
      (mkErrorResponse agentName msg).dataset_path = none ∧
      (mkErrorResponse agentName msg).target_column = none ∧
      (mkErrorResponse agentName msg).best_model = none ∧
      (mkErrorResponse agentName msg).best_model_rmse = none ∧
      (mkErrorResponse agentName msg).best_model_mae = none ∧
      (mkErrorResponse agentName msg).top_features = none ∧
      (mkErrorResponse agentName msg).all_models = none ∧
      (mkErrorResponse agentName msg).prediction_interval = none ∧
      (mkErrorResponse agentName msg).outliers = none ∧
      (mkErrorResponse agentName msg).domain_specific_models = none := by
  refine ⟨"Environment variable " ++ envVar ++ " not set; cannot load dataset",
    ?_, rfl, rfl, rfl, rfl, rfl, rfl, rfl, rfl, rfl, rfl, rfl⟩
  simp [analyzeModel, h]

/-- Witness for C9 with an empty process environment. -/
theorem C9_witness :
    resolveEnvStr [] "DATASET_PATH" = none ∧
    ∃ msg, analyzeModel [] "DatasetML" "DATASET_PATH" (fun _ => none)
        (fun _ _ _ => mkErrorResponse "DatasetML" "x") =
        Except.ok (mkErrorResponse "DatasetML" msg) ∧
      (mkErrorResponse "DatasetML" msg).errorMsg = some msg ∧
      (mkErrorResponse "DatasetML" msg).dataset_path = none ∧
      (mkErrorResponse "DatasetML" msg).target_column = none ∧
      (mkErrorResponse "DatasetML" msg).best_model = none ∧
      (mkErrorResponse "DatasetML" msg).best_model_rmse = none ∧
      (mkErrorResponse "DatasetML" msg).best_model_mae = none ∧
      (mkErrorResponse "DatasetML" msg).top_features = none ∧
      (mkErrorResponse "DatasetML" msg).all_models = none ∧
      (mkErrorResponse "DatasetML" msg).prediction_interval = none ∧
      (mkErrorResponse "DatasetML" msg).outliers = none ∧
      (mkErrorResponse "DatasetML" msg).domain_specific_models = none :=
  ⟨rfl, C9_missing_path [] "DatasetML" "DATASET_PATH" (fun _ => none)
    (fun _ _ _ => mkErrorResponse "DatasetML" "x") rfl⟩

/-- Claim C10: a successfully loaded, non-empty dataset with a resolved target
column, at least one feature column and fewer than 5 rows makes the 5-fold
split raise, and the exception escapes `analyze` instead of becoming a
structured result. -/
theorem C10_small_dataset (env : Env) (agentName envVar path : String)
    (load : String → Option DataFrame)
    (pipeline : DataFrame → String → Option String → Response)
    (df : DataFrame) (target : String)
    (hp : resolveEnvStr env envVar = some path)
    (hl : load path = some df)
    (hne : df.isEmptyDF = false)
    (ht : findTargetCol df = some target)
    (hX : (preprocessX df target).length ≠ 0)
    (hrows : df.numRows < 5) :
    ∃ e, analyzeModel env agentName envVar load pipeline = Except.error e := by
  refine ⟨"Cannot have number of splits n_splits greater than the number of samples", ?_⟩
  simp [analyzeModel, hp, hl, hne, ht, hX, kfoldSplitCheck, hrows]

/-- Witness for C10 on a concrete 3-row dataset with target `Effort` and one
feature `Size`. -/
theorem C10_witness :
    ∃ e, analyzeModel [("DATASET_PATH", "d.csv")] "DatasetML" "DATASET_PATH"
        (fun p => if p = "d.csv" then
          some ⟨[("Effort", Column.numeric [some 1, some 2, some 3]),
                 ("Size", Column.numeric [some 4, some 5, some 6])]⟩
          else none)
        (fun _ _ _ => mkErrorResponse "DatasetML" "x") = Except.error e :=
  C10_small_dataset [("DATASET_PATH", "d.csv")] "DatasetML" "DATASET_PATH" "d.csv"
    (fun p => if p = "d.csv" then
      some ⟨[("Effort", Column.numeric [some 1, some 2, some 3]),
             ("Size", Column.numeric [some 4, some 5, some 6])]⟩
      else none)
    (fun _ _ _ => mkErrorResponse "DatasetML" "x")
    ⟨[("Effort", Column.numeric [some 1, some 2, some 3]),
      ("Size", Column.numeric [some 4, some 5, some 6])]⟩ "Effort"
    (by decide) (by decide) (by decide) (by decide) (by decide) (by decide)

end DatasetML
